import Mathlib

/-!
Verification of the provider-routing core (`src/providers/registry.rs`) of
claude-code-mux: registry construction from configurations, credential
resolution (inline keys, credential files, JSON token search), and
model-to-provider lookup.

The snapshot contains `registry.rs` and `lib.rs` only; the configuration
record, the error enum and the concrete adapter constructors live in
sibling modules that are not part of the snapshot, so those are modelled
from the specification (each such definition says so in its doc comment).
Everything else is a direct shallow embedding of `registry.rs`: the two
`HashMap`s become association lists, `serde_json::Value` becomes the
inductive `Json`, and the process environment (home directory, file
system, JSON parser) becomes an explicit `Env` record of functions.
-/

/-- Shallow embedding of `serde_json::Value`.  Objects are kept as ordered
key/value lists (document order), matching the spec statement that sibling
order follows the document's own key/array order. -/
inductive Json where
  | null : Json
  | bool : Bool → Json
  | num : Int → Json
  | str : String → Json
  | arr : List Json → Json
  | obj : List (String × Json) → Json
deriving Repr

/-- Model of Rust `str::trim` (an external standard-library function),
written structurally over the character list so that concrete instances
evaluate: drop whitespace from both ends. -/
def rustTrim (s : String) : String :=
  String.mk (((s.data.dropWhile Char.isWhitespace).reverse.dropWhile Char.isWhitespace).reverse)

/-- Model of Rust `str::is_empty`. -/
def strIsEmpty (s : String) : Bool :=
  s.data.isEmpty

/-- Model of Rust `str::starts_with`. -/
def strStartsWith (s pat : String) : Bool :=
  pat.data.isPrefixOf s.data

/-- The remainder a successful `str::strip_prefix` leaves for a pattern of
`n` characters: the string with its first `n` characters removed. -/
def strDrop (n : Nat) (s : String) : String :=
  String.mk (s.data.drop n)

/-- Embedding of `Value::as_str`: only JSON strings yield a string. -/
def Json.asStr : Json → Option String
  | .str s => some s
  | _ => none

/-- Embedding of `Map::get` on a JSON object (keys are unique in a JSON
document; the first binding wins). -/
def jsonGet (map : List (String × Json)) (k : String) : Option Json :=
  match map with
  | [] => none
  | (k₁, v) :: rest => if k₁ = k then some v else jsonGet rest k

/-- The `TOKEN_KEYS` constant of `extract_api_key_from_json`, in source
order. -/
def TOKEN_KEYS : List String :=
  ["api_key", "token", "access_token", "key", "oauth_token", "bearer_token"]

/-- The key-priority loop at the head of `search`: try each token key in
order; a present key whose value is a non-blank string (after trimming)
wins, anything else falls through to the next key. -/
def firstTokenKey (tks : List String) (map : List (String × Json)) : Option String :=
  match tks with
  | [] => none
  | k :: rest =>
    match (jsonGet map k).bind Json.asStr with
    | some v =>
      let t := rustTrim v
      if strIsEmpty t then firstTokenKey rest map else some t
    | none => firstTokenKey rest map

mutual

/-- Embedding of the inner `search` of `extract_api_key_from_json`: at an
object, try the token keys first, then recurse into the values in order;
at an array, recurse into the elements in order; scalars never match. -/
def searchJson (tks : List String) : Json → Option String
  | .obj map =>
    match firstTokenKey tks map with
    | some s => some s
    | none => searchVals tks map
  | .arr xs => searchArr tks xs
  | .null => none
  | .bool _ => none
  | .num _ => none
  | .str _ => none

/-- The `for nested in map.values()` loop of `search`. -/
def searchVals (tks : List String) : List (String × Json) → Option String
  | [] => none
  | (_, v) :: rest =>
    match searchJson tks v with
    | some s => some s
    | none => searchVals tks rest

/-- The `arr.iter().find_map(...)` arm of `search`. -/
def searchArr (tks : List String) : List Json → Option String
  | [] => none
  | v :: rest =>
    match searchJson tks v with
    | some s => some s
    | none => searchArr tks rest

end

/-- Embedding of `extract_api_key_from_json`. -/
def extract_api_key_from_json (value : Json) : Option String :=
  searchJson TOKEN_KEYS value

/-- Error enum of `providers/error.rs` (module absent from the snapshot).
Modelled from the spec: `ConfigError(message)` and
`ModelNotSupported(model_id)` are the two error kinds named in the error
handling design. -/
inductive ProviderError where
  | ConfigError : String → ProviderError
  | ModelNotSupported : String → ProviderError
deriving Repr, DecidableEq

/-- Display text of a `ProviderError`, used when `resolve_api_key` wraps an
inner error with `format!`.  Modelled from the spec: the error carries its
message. -/
def providerErrorText : ProviderError → String
  | .ConfigError m => m
  | .ModelNotSupported m => m

/-- Auth variants of the configuration record (`providers/mod.rs`, absent
from the snapshot).  Modelled from the spec: `auth_type` is
`"api_key" | "oauth"`. -/
inductive AuthType where
  | ApiKey : AuthType
  | OAuth : AuthType
deriving Repr, DecidableEq

/-- The backend configuration record (`ProviderConfig`, defined outside the
snapshot).  Modelled from the spec: §6 lists its fields; `models` is
deprecated and unused for routing but kept for faithfulness. -/
structure ProviderConfig where
  name : String
  provider_type : String
  auth_type : AuthType
  api_key : Option String
  api_key_path : Option String
  base_url : Option String
  models : List String
  oauth_provider : Option String
  enabled : Option Bool

/-- `ProviderConfig::is_enabled` (defined outside the snapshot).  Modelled
from the spec: `enabled` is an optional bool defaulting to true. -/
def ProviderConfig.is_enabled (c : ProviderConfig) : Bool :=
  c.enabled.getD true

/-- The process environment the resolver reads: the home directory
(`dirs::home_dir()`), the file system (`fs::read_to_string`, path to
content or an I/O error message) and the JSON parser
(`serde_json::from_str`, text to value or a parse error message). -/
structure Env where
  home : Option String
  fs : String → Except String String
  parse : String → Except String Json

/-- `PathBuf::join` for the relative remainder of a `~/` path: the home
directory, a separator, the remainder. -/
def joinPath (dir rest : String) : String :=
  dir ++ "/" ++ rest

/-- Embedding of `expand_home`: a path starting with `~/` joins the home
directory with the remainder (none when no home directory exists); any
other path passes through unchanged. -/
def expand_home (home : Option String) (path : String) : Option String :=
  if strStartsWith path "~/" then
    home.map (fun h => joinPath h (strDrop 2 path))
  else
    some path

/-- Embedding of `load_api_key_from_file`: expand the path, read the file,
trim; content starting with a left brace is parsed as JSON and searched
for a token field, anything else is the secret verbatim. -/
def load_api_key_from_file (env : Env) (path_str : String) : Except ProviderError String :=
  match expand_home env.home path_str with
  | none => .error (.ConfigError ("Invalid api_key_path: " ++ path_str))
  | some path =>
    match env.fs path with
    | .error e => .error (.ConfigError ("Failed to read " ++ path ++ ": " ++ e))
    | .ok content =>
      let trimmed := rustTrim content
      if strStartsWith trimmed "\x7b" then
        match env.parse trimmed with
        | .error e =>
          .error (.ConfigError ("Failed to parse JSON from " ++ path ++ ": " ++ e))
        | .ok value =>
          match extract_api_key_from_json value with
          | some s => .ok s
          | none =>
            .error (.ConfigError ("No api_key/access_token/token field found in " ++ path))
      else
        .ok trimmed

/-- The `if let Some(ref api_key) ... if !api_key.trim().is_empty()` guard
of `resolve_api_key`: the inline key when present and non-blank. -/
def inlineKeyOk (c : ProviderConfig) : Option String :=
  match c.api_key with
  | some k => if strIsEmpty (rustTrim k) then none else some k
  | none => none

/-- Embedding of `resolve_api_key`: a non-blank inline key wins, then the
file path (its failure wrapped with the path), otherwise a configuration
error naming the provider. -/
def resolve_api_key (env : Env) (c : ProviderConfig) : Except ProviderError String :=
  match inlineKeyOk c with
  | some k => .ok k
  | none =>
    match c.api_key_path with
    | some path =>
      match load_api_key_from_file env path with
      | .ok s => .ok s
      | .error e =>
        .error (.ConfigError
          ("Failed to read api_key from " ++ path ++ ": " ++ providerErrorText e))
    | none =>
      .error (.ConfigError
        ("Provider \x27" ++ c.name ++ "\x27 requires api_key or api_key_path for ApiKey auth"))

/-- Uniform backend capability handle (`Box<dyn AnthropicProvider>` behind
an `Arc`).  Modelled from the spec: the trait and its implementations are
outside the snapshot; the registry depends only on `name()` and
`supports_model(model_id)`. -/
structure Adapter where
  name : String
  supports : String → Bool

/-- Embedding of `ProviderRegistry`: the two `HashMap`s as association
lists (a `HashMap` holds at most one binding per key; `insertAssoc`
preserves that). -/
structure ProviderRegistry where
  providers : List (String × Adapter)
  model_to_provider : List (String × String)

/-- First-binding lookup in an association list (`HashMap::get`). -/
def lookupAssoc {α : Type} (l : List (String × α)) (k : String) : Option α :=
  match l with
  | [] => none
  | (k₁, v) :: rest => if k₁ = k then some v else lookupAssoc rest k

/-- `HashMap::insert`: replace the binding when the key is present,
append it otherwise. -/
def insertAssoc {α : Type} (k : String) (v : α) : List (String × α) → List (String × α)
  | [] => [(k, v)]
  | (k₁, v₁) :: rest =>
    if k₁ = k then (k, v) :: rest else (k₁, v₁) :: insertAssoc k v rest

/-- `ProviderRegistry::new`: both maps empty. -/
def ProviderRegistry.new : ProviderRegistry :=
  { providers := [], model_to_provider := [] }

/-- The dispatch tags of the `match config.provider_type.as_str()` in
`from_configs`, in source order (the `"github-copilot" | "copilot"` arm
contributes two tags).  Every arm constructs its adapter infallibly; only
the wildcard arm errors. -/
def knownProviderTypes : List String :=
  ["openai", "anthropic", "z.ai", "minimax", "zenmux", "kimi-coding",
   "openrouter", "deepinfra", "novita", "baseten", "together",
   "github-copilot", "copilot", "fireworks", "groq", "nebius", "cerebras",
   "moonshot", "qwen", "gemini", "longcat", "lmstudio", "ollama"]

/-- The `let api_key = match &config.auth_type` step of the loop body of
`from_configs`: `resolve_api_key` for ApiKey auth, the OAuth reference
falling back to the entry name for OAuth auth. -/
def entryKey (env : Env) (c : ProviderConfig) : Except ProviderError String :=
  match c.auth_type with
  | .ApiKey => resolve_api_key env c
  | .OAuth => .ok (c.oauth_provider.getD c.name)

/-- One iteration of the `for config in configs` loop of `from_configs`:
skip a disabled entry; resolve the credential (`entryKey`); dispatch on
`provider_type` (a known tag constructs an adapter — the concrete
constructors are outside the snapshot and are abstracted as the factory
`mk` —, an unknown tag aborts with a `ConfigError` naming it); insert the
adapter under the entry name. -/
def buildStep (mk : ProviderConfig → String → Adapter) (env : Env)
    (reg : ProviderRegistry) (c : ProviderConfig) : Except ProviderError ProviderRegistry :=
  if c.is_enabled = false then
    .ok reg
  else
    match entryKey env c with
    | .error e => .error e
    | .ok api_key =>
      if knownProviderTypes.contains c.provider_type then
        .ok { reg with providers := insertAssoc c.name (mk c api_key) reg.providers }
      else
        .error (.ConfigError ("Unknown provider type: " ++ c.provider_type))

/-- An entry on which the loop body of `from_configs` errors: an enabled
entry whose credential resolution fails or whose `provider_type` is not a
dispatch tag. -/
def entryFails (env : Env) (c : ProviderConfig) : Bool :=
  c.is_enabled &&
    (match entryKey env c with
     | .error _ => true
     | .ok _ => !(knownProviderTypes.contains c.provider_type))

/-- The `for` loop of `from_configs`, threading the registry. -/
def buildLoop (mk : ProviderConfig → String → Adapter) (env : Env) :
    ProviderRegistry → List ProviderConfig → Except ProviderError ProviderRegistry
  | reg, [] => .ok reg
  | reg, c :: rest =>
    match buildStep mk env reg c with
    | .error e => .error e
    | .ok reg₂ => buildLoop mk env reg₂ rest

/-- Embedding of `ProviderRegistry::from_configs` (the `token_store`
argument is only forwarded to the external constructors, so it lives
inside the factory `mk`). -/
def from_configs (mk : ProviderConfig → String → Adapter) (env : Env)
    (configs : List ProviderConfig) : Except ProviderError ProviderRegistry :=
  buildLoop mk env ProviderRegistry.new configs

/-- Embedding of `ProviderRegistry::get_provider`: exact name lookup. -/
def get_provider (r : ProviderRegistry) (name : String) : Option Adapter :=
  lookupAssoc r.providers name

/-- The `for provider in self.providers.values()` fallback scan of
`get_provider_for_model`: first adapter in registry order that supports
the model. -/
def scanProviders (model : String) : List (String × Adapter) → Option Adapter
  | [] => none
  | (_, p) :: rest => if p.supports model then some p else scanProviders model rest

/-- Embedding of `ProviderRegistry::get_provider_for_model`: an explicit
model mapping whose provider is still registered wins; otherwise the
fallback scan; otherwise `ModelNotSupported` with the requested model. -/
def get_provider_for_model (r : ProviderRegistry) (model : String) :
    Except ProviderError Adapter :=
  match (lookupAssoc r.model_to_provider model).bind (fun n => lookupAssoc r.providers n) with
  | some p => .ok p
  | none =>
    match scanProviders model r.providers with
    | some p => .ok p
    | none => .error (.ModelNotSupported model)

/-- Embedding of `ProviderRegistry::list_models`: the keys of the
model-to-provider map. -/
def list_models (r : ProviderRegistry) : List String :=
  r.model_to_provider.map Prod.fst

/-- Embedding of `ProviderRegistry::list_providers`: the keys of the
provider map. -/
def list_providers (r : ProviderRegistry) : List String :=
  r.providers.map Prod.fst

/-! ### Association-list lemmas -/

theorem lookupAssoc_insertAssoc_self {α : Type} (k : String) (v : α)
    (l : List (String × α)) : lookupAssoc (insertAssoc k v l) k = some v := by
  induction l with
  | nil => simp [insertAssoc, lookupAssoc]
  | cons hd tl ih =>
    obtain ⟨k₁, v₁⟩ := hd
    by_cases h : k₁ = k
    · simp [insertAssoc, lookupAssoc, h]
    · simp [insertAssoc, lookupAssoc, h, ih]

theorem lookupAssoc_insertAssoc_ne {α : Type} {k n : String} (v : α)
    (l : List (String × α)) (h : n ≠ k) :
    lookupAssoc (insertAssoc k v l) n = lookupAssoc l n := by
  induction l with
  | nil => simp [insertAssoc, lookupAssoc, Ne.symm h]
  | cons hd tl ih =>
    obtain ⟨k₁, v₁⟩ := hd
    by_cases h₁ : k₁ = k
    · simp [insertAssoc, lookupAssoc, h₁, Ne.symm h]
    · simp [insertAssoc, lookupAssoc, h₁, ih]

theorem insertAssoc_keys {α : Type} (k : String) (v : α) (l : List (String × α)) :
    (insertAssoc k v l).map Prod.fst =
      if k ∈ l.map Prod.fst then l.map Prod.fst else l.map Prod.fst ++ [k] := by
  induction l with
  | nil => simp [insertAssoc]
  | cons hd tl ih =>
    obtain ⟨k₁, v₁⟩ := hd
    by_cases h : k₁ = k
    · simp [insertAssoc, h]
    · by_cases hm : k ∈ tl.map Prod.fst <;>
        simp [insertAssoc, h, ih, hm, Ne.symm h]

theorem insertAssoc_keys_nodup {α : Type} (k : String) (v : α)
    (l : List (String × α)) (h : (l.map Prod.fst).Nodup) :
    ((insertAssoc k v l).map Prod.fst).Nodup := by
  rw [insertAssoc_keys]
  split
  · exact h
  · next hk =>
    rw [List.nodup_append]
    refine ⟨h, List.nodup_singleton k, ?_⟩
    intro a ha hak
    rw [List.mem_singleton] at hak
    subst hak
    exact hk ha

theorem mem_keys_iff_lookupAssoc {α : Type} (l : List (String × α)) (n : String) :
    n ∈ l.map Prod.fst ↔ ∃ v, lookupAssoc l n = some v := by
  induction l with
  | nil => simp [lookupAssoc]
  | cons hd tl ih =>
    obtain ⟨k, v⟩ := hd
    by_cases h : k = n
    · simp [lookupAssoc, h]
    · have h' : ¬ n = k := fun hh => h hh.symm
      simp [lookupAssoc, h, h', ih]

theorem scanProviders_eq_find (model : String) (l : List (String × Adapter)) :
    scanProviders model l = (l.map Prod.snd).find? (fun p => p.supports model) := by
  induction l with
  | nil => rfl
  | cons hd tl ih =>
    obtain ⟨k, p⟩ := hd
    by_cases h : p.supports model <;>
      simp [scanProviders, h, ih, List.find?_cons_of_pos, List.find?_cons_of_neg]

/-! ### Shape of build errors -/

theorem resolve_api_key_error {env : Env} {c : ProviderConfig} {e : ProviderError}
    (h : resolve_api_key env c = Except.error e) :
    ∃ m, e = ProviderError.ConfigError m := by
  unfold resolve_api_key at h
  split at h
  · simp at h
  · split at h
    · split at h
      · simp at h
      · simp only [Except.error.injEq] at h
        exact ⟨_, h.symm⟩
    · simp only [Except.error.injEq] at h
      exact ⟨_, h.symm⟩

theorem entryKey_error {env : Env} {c : ProviderConfig} {e : ProviderError}
    (h : entryKey env c = Except.error e) : ∃ m, e = ProviderError.ConfigError m := by
  unfold entryKey at h
  split at h
  · exact resolve_api_key_error h
  · simp at h

theorem buildStep_error_config {mk : ProviderConfig → String → Adapter} {env : Env}
    {reg : ProviderRegistry} {c : ProviderConfig} {e : ProviderError}
    (h : buildStep mk env reg c = Except.error e) :
    ∃ m, e = ProviderError.ConfigError m := by
  unfold buildStep at h
  split at h
  · simp at h
  · split at h
    · next e₁ heq =>
      simp only [Except.error.injEq] at h
      exact h ▸ entryKey_error heq
    · split at h
      · simp at h
      · simp only [Except.error.injEq] at h
        exact ⟨_, h.symm⟩

theorem buildStep_error_of_fails (mk : ProviderConfig → String → Adapter) {env : Env}
    {c : ProviderConfig} (reg : ProviderRegistry) (h : entryFails env c = true) :
    ∃ m, buildStep mk env reg c = Except.error (ProviderError.ConfigError m) := by
  unfold entryFails at h
  rw [Bool.and_eq_true] at h
  obtain ⟨hen, hrest⟩ := h
  unfold buildStep
  rw [hen]
  simp only [Bool.true_eq_false, if_false]
  cases hek : entryKey env c with
  | error e =>
    obtain ⟨m, hm⟩ := entryKey_error hek
    exact ⟨m, by simp [hm]⟩
  | ok k =>
    rw [hek] at hrest
    simp only [Bool.not_eq_true'] at hrest
    have hmem : ¬ c.provider_type ∈ knownProviderTypes := by simpa using hrest
    simp [hmem]

theorem buildStep_disabled (mk : ProviderConfig → String → Adapter) (env : Env)
    {c : ProviderConfig} (reg : ProviderRegistry) (h : c.is_enabled = false) :
    buildStep mk env reg c = Except.ok reg := by
  simp [buildStep, h]

/-- The successful loop body as a pure state transformer: skip a disabled
entry, insert the adapter of an enabled one (identity in the error cases,
which cannot arise when `entryFails` is false). -/
def buildPure (mk : ProviderConfig → String → Adapter) (env : Env)
    (reg : ProviderRegistry) (c : ProviderConfig) : ProviderRegistry :=
  if c.is_enabled = false then reg
  else
    match entryKey env c with
    | .error _ => reg
    | .ok k =>
      if knownProviderTypes.contains c.provider_type then
        { reg with providers := insertAssoc c.name (mk c k) reg.providers }
      else reg

theorem buildStep_eq_pure (mk : ProviderConfig → String → Adapter) {env : Env}
    {c : ProviderConfig} (reg : ProviderRegistry) (h : entryFails env c = false) :
    buildStep mk env reg c = Except.ok (buildPure mk env reg c) := by
  unfold entryFails at h
  by_cases hen : c.is_enabled = false
  · simp [buildStep, buildPure, hen]
  · rw [Bool.not_eq_false] at hen
    rw [hen] at h
    rw [Bool.true_and] at h
    unfold buildStep buildPure
    rw [hen]
    simp only [Bool.true_eq_false, if_false]
    cases hek : entryKey env c with
    | error e => rw [hek] at h; simp at h
    | ok k =>
      rw [hek] at h
      simp only [Bool.not_eq_false'] at h
      have hmem : c.provider_type ∈ knownProviderTypes := by simpa using h
      simp [hmem]

/-! ### Loop lemmas -/

theorem buildLoop_error_of_mem {mk : ProviderConfig → String → Adapter} {env : Env}
    {configs : List ProviderConfig} {c : ProviderConfig} (hc : c ∈ configs)
    (hf : entryFails env c = true) (reg : ProviderRegistry) :
    ∃ m, buildLoop mk env reg configs = Except.error (ProviderError.ConfigError m) := by
  induction configs generalizing reg with
  | nil => cases hc
  | cons d rest ih =>
    cases hbs : buildStep mk env reg d with
    | error e =>
      obtain ⟨m, hm⟩ := buildStep_error_config hbs
      exact ⟨m, by simp [buildLoop, hbs, hm]⟩
    | ok reg₂ =>
      rcases List.mem_cons.mp hc with h | h
      · subst h
        obtain ⟨m, hm⟩ := buildStep_error_of_fails mk reg hf
        rw [hm] at hbs
        cases hbs
      · obtain ⟨m, hm⟩ := ih h reg₂
        exact ⟨m, by simp [buildLoop, hbs, hm]⟩

theorem buildLoop_append_ok {mk : ProviderConfig → String → Adapter} {env : Env}
    {pre : List ProviderConfig} (h : ∀ d ∈ pre, entryFails env d = false) :
    ∀ (reg : ProviderRegistry) (rest : List ProviderConfig),
      ∃ reg', buildLoop mk env reg (pre ++ rest) = buildLoop mk env reg' rest := by
  induction pre with
  | nil => exact fun reg rest => ⟨reg, rfl⟩
  | cons d tl ih =>
    intro reg rest
    have hd := h d (List.mem_cons_self d tl)
    have h2 := buildStep_eq_pure mk reg hd
    obtain ⟨reg', h'⟩ := ih (fun x hx => h x (List.mem_cons_of_mem _ hx))
      (buildPure mk env reg d) rest
    exact ⟨reg', by simpa [buildLoop, h2] using h'⟩

theorem buildStep_model_map {mk : ProviderConfig → String → Adapter} {env : Env}
    {reg : ProviderRegistry} {c : ProviderConfig} {reg' : ProviderRegistry}
    (h : buildStep mk env reg c = Except.ok reg') :
    reg'.model_to_provider = reg.model_to_provider := by
  unfold buildStep at h
  split at h
  · simp only [Except.ok.injEq] at h
    rw [← h]
  · split at h
    · simp at h
    · split at h
      · simp only [Except.ok.injEq] at h
        rw [← h]
      · simp at h

theorem buildLoop_model_map {mk : ProviderConfig → String → Adapter} {env : Env}
    {configs : List ProviderConfig} :
    ∀ {reg r : ProviderRegistry}, buildLoop mk env reg configs = Except.ok r →
      r.model_to_provider = reg.model_to_provider := by
  induction configs with
  | nil =>
    intro reg r h
    simp only [buildLoop, Except.ok.injEq] at h
    rw [← h]
  | cons c rest ih =>
    intro reg r h
    cases hbs : buildStep mk env reg c with
    | error e => simp [buildLoop, hbs] at h
    | ok reg₂ =>
      simp only [buildLoop, hbs] at h
      exact (ih h).trans (buildStep_model_map hbs)

theorem buildStep_keys {mk : ProviderConfig → String → Adapter} {env : Env}
    {reg : ProviderRegistry} {c : ProviderConfig} {reg' : ProviderRegistry}
    (h : buildStep mk env reg c = Except.ok reg') (k : String)
    (hk : k ∈ reg'.providers.map Prod.fst) :
    k ∈ reg.providers.map Prod.fst ∨ (c.name = k ∧ c.is_enabled = true) := by
  unfold buildStep at h
  split at h
  · simp only [Except.ok.injEq] at h
    exact Or.inl (h ▸ hk)
  · next hen =>
    rw [Bool.not_eq_false] at hen
    split at h
    · simp at h
    · split at h
      · simp only [Except.ok.injEq] at h
        rw [← h] at hk
        simp only at hk
        rw [insertAssoc_keys] at hk
        split at hk
        · exact Or.inl hk
        · rcases List.mem_append.mp hk with hk | hk
          · exact Or.inl hk
          · rw [List.mem_singleton] at hk
            exact Or.inr ⟨hk.symm, hen⟩
      · simp at h

theorem buildLoop_keys {mk : ProviderConfig → String → Adapter} {env : Env}
    {configs : List ProviderConfig} :
    ∀ {reg r : ProviderRegistry}, buildLoop mk env reg configs = Except.ok r →
      ∀ k, k ∈ r.providers.map Prod.fst →
        k ∈ reg.providers.map Prod.fst ∨
          ∃ c ∈ configs, c.name = k ∧ c.is_enabled = true := by
  induction configs with
  | nil =>
    intro reg r h k hk
    simp only [buildLoop, Except.ok.injEq] at h
    exact Or.inl (h ▸ hk)
  | cons c rest ih =>
    intro reg r h k hk
    cases hbs : buildStep mk env reg c with
    | error e => simp [buildLoop, hbs] at h
    | ok reg₂ =>
      simp only [buildLoop, hbs] at h
      rcases ih h k hk with h₁ | ⟨d, hd, hdk⟩
      · rcases buildStep_keys hbs k h₁ with h₂ | h₂
        · exact Or.inl h₂
        · exact Or.inr ⟨c, List.mem_cons_self c rest, h₂⟩
      · exact Or.inr ⟨d, List.mem_cons_of_mem _ hd, hdk⟩

theorem buildLoop_filter (mk : ProviderConfig → String → Adapter) (env : Env) :
    ∀ (configs : List ProviderConfig) (reg : ProviderRegistry),
      buildLoop mk env reg (configs.filter (fun c => c.is_enabled)) =
        buildLoop mk env reg configs := by
  intro configs
  induction configs with
  | nil => intro reg; rfl
  | cons c rest ih =>
    intro reg
    by_cases h : c.is_enabled = true
    · rw [List.filter_cons_of_pos (by simpa using h)]
      cases hbs : buildStep mk env reg c <;> simp [buildLoop, hbs, ih]
    · rw [Bool.not_eq_true] at h
      rw [List.filter_cons_of_neg (by simpa using h)]
      rw [ih]
      have := buildStep_disabled mk env reg h
      simp [buildLoop, this]

theorem buildLoop_ok_of_all {mk : ProviderConfig → String → Adapter} {env : Env}
    {configs : List ProviderConfig} (h : ∀ c ∈ configs, entryFails env c = false) :
    ∀ reg, buildLoop mk env reg configs =
      Except.ok (configs.foldl (buildPure mk env) reg) := by
  induction configs with
  | nil => intro reg; rfl
  | cons c rest ih =>
    intro reg
    have h2 := buildStep_eq_pure mk reg (h c (List.mem_cons_self c rest))
    simp [buildLoop, h2, ih (fun x hx => h x (List.mem_cons_of_mem _ hx))]

/-- The last enabled entry carrying a given name, in configuration-list
order (the entry whose insertion survives, since a later `HashMap::insert`
under the same key replaces an earlier one). -/
def lastEnabledNamed (configs : List ProviderConfig) (n : String) : Option ProviderConfig :=
  match configs with
  | [] => none
  | c :: rest =>
    match lastEnabledNamed rest n with
    | some d => some d
    | none => if c.is_enabled && c.name == n then some c else none

theorem entry_ok_of_not_fails {env : Env} {c : ProviderConfig}
    (h : entryFails env c = false) (hen : c.is_enabled = true) :
    (∃ k, entryKey env c = Except.ok k) ∧
      knownProviderTypes.contains c.provider_type = true := by
  unfold entryFails at h
  rw [hen, Bool.true_and] at h
  cases hek : entryKey env c with
  | error e => rw [hek] at h; simp at h
  | ok k =>
    rw [hek] at h
    simp only [Bool.not_eq_false'] at h
    exact ⟨⟨k, rfl⟩, h⟩

theorem buildPure_lookup_other {mk : ProviderConfig → String → Adapter} {env : Env}
    {reg : ProviderRegistry} {c : ProviderConfig} {n : String}
    (h : (c.is_enabled && c.name == n) = false) :
    lookupAssoc ((buildPure mk env reg c).providers) n = lookupAssoc reg.providers n := by
  unfold buildPure
  by_cases hen : c.is_enabled = false
  · simp [hen]
  · rw [Bool.not_eq_false] at hen
    rw [hen, Bool.true_and] at h
    have hnm : n ≠ c.name := by
      intro hh
      rw [hh] at h
      simp at h
    rw [hen]
    simp only [Bool.true_eq_false, if_false]
    cases hek : entryKey env c with
    | error e => rfl
    | ok k =>
      dsimp only
      by_cases hkn : knownProviderTypes.contains c.provider_type = true
      · rw [if_pos hkn]
        exact lookupAssoc_insertAssoc_ne _ _ hnm
      · rw [if_neg hkn]

theorem buildPure_lookup_self {mk : ProviderConfig → String → Adapter} {env : Env}
    {reg : ProviderRegistry} {c : ProviderConfig} {k : String}
    (hen : c.is_enabled = true) (hek : entryKey env c = Except.ok k)
    (hkn : knownProviderTypes.contains c.provider_type = true) :
    lookupAssoc ((buildPure mk env reg c).providers) c.name = some (mk c k) := by
  have hmem : c.provider_type ∈ knownProviderTypes := by simpa using hkn
  simp [buildPure, hen, hek, hkn, hmem, lookupAssoc_insertAssoc_self]

theorem foldPure_lookup {mk : ProviderConfig → String → Adapter} {env : Env} :
    ∀ (configs : List ProviderConfig), (∀ c ∈ configs, entryFails env c = false) →
    ∀ (reg : ProviderRegistry) (n : String),
      (lastEnabledNamed configs n = none →
        lookupAssoc ((configs.foldl (buildPure mk env) reg).providers) n =
          lookupAssoc reg.providers n) ∧
      (∀ c, lastEnabledNamed configs n = some c →
        ∃ k, entryKey env c = Except.ok k ∧
          lookupAssoc ((configs.foldl (buildPure mk env) reg).providers) n = some (mk c k)) := by
  intro configs
  induction configs with
  | nil =>
    intro _ reg n
    exact ⟨fun _ => rfl, fun c hc => by simp [lastEnabledNamed] at hc⟩
  | cons c₀ rest ih =>
    intro h reg n
    have h₀ := h c₀ (List.mem_cons_self c₀ rest)
    have hrest : ∀ c ∈ rest, entryFails env c = false :=
      fun x hx => h x (List.mem_cons_of_mem _ hx)
    have ihr := ih hrest (buildPure mk env reg c₀) n
    cases hr : lastEnabledNamed rest n with
    | some d =>
      have hcons : lastEnabledNamed (c₀ :: rest) n = some d := by
        simp [lastEnabledNamed, hr]
      refine ⟨fun hnone => (by rw [hcons] at hnone; cases hnone), fun c hc => ?_⟩
      rw [hcons] at hc
      injection hc with hc
      obtain ⟨k, hk, hl⟩ := ihr.2 d hr
      subst hc
      exact ⟨k, hk, by rw [List.foldl_cons]; exact hl⟩
    | none =>
      have ihr1 := ihr.1 hr
      by_cases hcn : (c₀.is_enabled && c₀.name == n) = true
      · have hcons : lastEnabledNamed (c₀ :: rest) n = some c₀ := by
          simp only [lastEnabledNamed, hr]
          rw [hcn]
          rfl
        rw [Bool.and_eq_true] at hcn
        obtain ⟨hen, hnm⟩ := hcn
        have hnm' : c₀.name = n := by simpa using hnm
        obtain ⟨⟨k, hek⟩, hkn⟩ := entry_ok_of_not_fails h₀ hen
        refine ⟨fun hnone => (by rw [hcons] at hnone; cases hnone), fun c hc => ?_⟩
        rw [hcons] at hc
        injection hc with hc
        subst hc
        refine ⟨k, hek, ?_⟩
        rw [List.foldl_cons, ihr1, ← hnm']
        exact buildPure_lookup_self hen hek hkn
      · rw [Bool.not_eq_true] at hcn
        have hcons : lastEnabledNamed (c₀ :: rest) n = none := by
          simp only [lastEnabledNamed, hr]
          rw [hcn]
          rfl
        refine ⟨fun _ => ?_, fun c hc => (by rw [hcons] at hc; cases hc)⟩
        rw [List.foldl_cons, ihr1]
        exact buildPure_lookup_other hcn

theorem buildPure_keys_nodup {mk : ProviderConfig → String → Adapter} {env : Env}
    {reg : ProviderRegistry} {c : ProviderConfig}
    (h : (reg.providers.map Prod.fst).Nodup) :
    (((buildPure mk env reg c).providers).map Prod.fst).Nodup := by
  unfold buildPure
  split
  · exact h
  · split
    · exact h
    · split
      · exact insertAssoc_keys_nodup _ _ _ h
      · exact h

theorem foldPure_keys_nodup (mk : ProviderConfig → String → Adapter) (env : Env) :
    ∀ (configs : List ProviderConfig) (reg : ProviderRegistry),
      (reg.providers.map Prod.fst).Nodup →
      (((configs.foldl (buildPure mk env) reg).providers).map Prod.fst).Nodup := by
  intro configs
  induction configs with
  | nil => exact fun reg h => h
  | cons c rest ih =>
    intro reg h
    rw [List.foldl_cons]
    exact ih _ (buildPure_keys_nodup h)

/-! ### JSON search invariants -/

theorem firstTokenKey_ne {tks : List String} {map : List (String × Json)} {s : String}
    (h : firstTokenKey tks map = some s) : s ≠ "" := by
  induction tks with
  | nil => simp [firstTokenKey] at h
  | cons k rest ih =>
    unfold firstTokenKey at h
    split at h
    · next v heq =>
      dsimp only at h
      split at h
      · exact ih h
      · next hne =>
        injection h with h
        subst h
        intro hh
        rw [hh] at hne
        exact hne (by decide)
    · exact ih h

theorem searchJson_ne (tks : List String) (j : Json) :
    ∀ s, searchJson tks j = some s → s ≠ "" := by
  refine searchJson.induct tks
    (fun j => ∀ s, searchJson tks j = some s → s ≠ "")
    (fun xs => ∀ s, searchArr tks xs = some s → s ≠ "")
    (fun map => ∀ s, searchVals tks map = some s → s ≠ "")
    ?_ ?_ ?_ ?_ ?_ ?_ ?_ ?_ ?_ ?_ ?_ ?_ ?_ j
  · intro map v heq s hs
    rw [searchJson, heq] at hs
    injection hs with hs
    exact hs ▸ firstTokenKey_ne heq
  · intro map heq ih s hs
    rw [searchJson, heq] at hs
    exact ih s hs
  · intro xs ih s hs
    rw [searchJson] at hs
    exact ih s hs
  · intro s hs
    rw [searchJson] at hs
    cases hs
  · intro b s hs
    rw [searchJson] at hs
    cases hs
  · intro n s hs
    rw [searchJson] at hs
    cases hs
  · intro t s hs
    rw [searchJson] at hs
    cases hs
  · intro s hs
    rw [searchArr] at hs
    cases hs
  · intro v rest v₁ hv ih s hs
    rw [searchArr, hv] at hs
    injection hs with hs
    exact hs ▸ ih v₁ hv
  · intro v rest hv ihv ih s hs
    rw [searchArr, hv] at hs
    exact ih s hs
  · intro s hs
    rw [searchVals] at hs
    cases hs
  · intro k₁ v rest v₁ hv ih s hs
    rw [searchVals, hv] at hs
    injection hs with hs
    exact hs ▸ ih v₁ hv
  · intro k₁ v rest hv ihv ih s hs
    rw [searchVals, hv] at hs
    exact ih s hs

/-! ### Concrete fixtures for witnesses and counterexamples -/

/-- A concrete adapter factory: the adapter supports exactly the models in
the configuration's (deprecated) `models` list. -/
def mkW : ProviderConfig → String → Adapter :=
  fun c _ => { name := c.name, supports := fun m => c.models.contains m }

/-- A concrete environment: a three-file file system and a parser that
recognises no document (no witness below reads JSON through it). -/
def envW : Env :=
  { home := some "/home/user",
    fs := fun p =>
      if p = "/home/user/creds/a.txt" then .ok "  sk-filekey  "
      else .error "no such file",
    parse := fun _ => .error "bad json" }

/-- Adapter supporting nothing. -/
def adapterA : Adapter := { name := "a", supports := fun _ => false }

/-- Adapter supporting exactly `gpt-4`. -/
def adapterB : Adapter := { name := "b", supports := fun m => m == "gpt-4" }

/-- A two-adapter registry with no explicit model mappings. -/
def regW : ProviderRegistry :=
  { providers := [("a", adapterA), ("b", adapterB)], model_to_provider := [] }

/-- A registry whose model index references a provider name that is no
longer registered. -/
def regStale : ProviderRegistry :=
  { providers := [("b", adapterB)], model_to_provider := [("gpt-4", "gone")] }

/-! ### C8 -/

/-- C8: for every path string, a path beginning with `~/` resolves to the
home directory joined with the remainder (so `~/secret.json` becomes
`<home>/secret.json`), and any path not beginning with `~/` passes through
completely unchanged. -/
theorem claim_C8_expand_home (h path : String) :
    (strStartsWith path "~/" = true →
      expand_home (some h) path = some (h ++ "/" ++ strDrop 2 path)) ∧
    (strStartsWith path "~/" = false →
      ∀ hm : Option String, expand_home hm path = some path) ∧
    expand_home (some h) "~/secret.json" = some (h ++ "/" ++ "secret.json") := by
  refine ⟨fun hs => ?_, fun hs hm => ?_, ?_⟩
  · simp [expand_home, hs, joinPath]
  · simp [expand_home, hs]
  · have h1 : strStartsWith "~/secret.json" "~/" = true := by decide
    have h2 : strDrop 2 "~/secret.json" = "secret.json" := by decide
    simp [expand_home, h1, h2, joinPath]

/-- Witness for C8 at concrete paths. -/
theorem claim_C8_expand_home_witness :
    strStartsWith "~/secret.json" "~/" = true ∧
    expand_home (some "/home/user") "~/secret.json" =
      some ("/home/user" ++ "/" ++ strDrop 2 "~/secret.json") ∧
    strStartsWith "/etc/key" "~/" = false ∧
    expand_home none "/etc/key" = some "/etc/key" :=
  ⟨by decide,
   (claim_C8_expand_home "/home/user" "~/secret.json").1 (by decide),
   by decide,
   (claim_C8_expand_home "/home/user" "/etc/key").2.1 (by decide) none⟩

/-! ### C2 -/

/-- C2: when no live explicit mapping exists for the model,
`get_provider_for_model` returns the first registered adapter (in registry
iteration order) whose `supports_model` check is true, and fails with
`ModelNotSupported` carrying exactly the requested model id when no
adapter supports it; on a registry with no providers it always fails with
`ModelNotSupported` (total function: it cannot panic and has no default
adapter to return). -/
theorem claim_C2_lookup_fallback (r : ProviderRegistry) (model : String) :
    ((lookupAssoc r.model_to_provider model).bind (fun n => lookupAssoc r.providers n) = none →
      get_provider_for_model r model =
        (match (r.providers.map Prod.snd).find? (fun p => p.supports model) with
         | some p => Except.ok p
         | none => Except.error (ProviderError.ModelNotSupported model))) ∧
    (r.providers = [] →
      get_provider_for_model r model = Except.error (ProviderError.ModelNotSupported model)) := by
  constructor
  · intro h
    unfold get_provider_for_model
    rw [h, scanProviders_eq_find]
  · intro h
    unfold get_provider_for_model
    rw [h]
    cases hm : lookupAssoc r.model_to_provider model <;>
      simp [lookupAssoc, scanProviders]

/-- Witness for C2: the scan returns the sole supporting adapter, and the
empty registry rejects every model. -/
theorem claim_C2_lookup_fallback_witness :
    get_provider_for_model regW "gpt-4" = Except.ok adapterB ∧
    get_provider_for_model ProviderRegistry.new "gpt-4" =
      Except.error (ProviderError.ModelNotSupported "gpt-4") := by
  constructor
  · have h := (claim_C2_lookup_fallback regW "gpt-4").1 rfl
    rw [h]
    rfl
  · exact (claim_C2_lookup_fallback ProviderRegistry.new "gpt-4").2 rfl

/-! ### C3 -/

/-- C3: a stale model mapping (its provider name absent from the provider
map) does not fail the lookup: `get_provider_for_model` proceeds to the
fallback scan over all registered adapters, returning a supporting adapter
whenever one exists. -/
theorem claim_C3_stale_mapping (r : ProviderRegistry) (model pname : String)
    (h1 : lookupAssoc r.model_to_provider model = some pname)
    (h2 : lookupAssoc r.providers pname = none) :
    (get_provider_for_model r model =
      (match (r.providers.map Prod.snd).find? (fun p => p.supports model) with
       | some p => Except.ok p
       | none => Except.error (ProviderError.ModelNotSupported model))) ∧
    (∀ p, (r.providers.map Prod.snd).find? (fun q => q.supports model) = some p →
      get_provider_for_model r model = Except.ok p ∧ p.supports model = true) := by
  have hmain : get_provider_for_model r model =
      (match (r.providers.map Prod.snd).find? (fun p => p.supports model) with
       | some p => Except.ok p
       | none => Except.error (ProviderError.ModelNotSupported model)) := by
    unfold get_provider_for_model
    rw [h1]
    simp only [Option.some_bind]
    rw [h2, scanProviders_eq_find]
  refine ⟨hmain, fun p hp => ⟨?_, by simpa using List.find?_some hp⟩⟩
  rw [hmain, hp]

/-- Witness for C3: the stale registry still resolves `gpt-4` through the
fallback scan. -/
theorem claim_C3_stale_mapping_witness :
    lookupAssoc regStale.model_to_provider "gpt-4" = some "gone" ∧
    lookupAssoc regStale.providers "gone" = none ∧
    get_provider_for_model regStale "gpt-4" = Except.ok adapterB := by
  refine ⟨rfl, rfl, ?_⟩
  have h := (claim_C3_stale_mapping regStale "gpt-4" "gone" rfl rfl).1
  rw [h]
  rfl

/-! ### C6 -/

/-- C6: for every config, a present inline `api_key` that is non-blank
after trimming wins and the file path is never consulted (the result does
not depend on the environment at all); otherwise a present `api_key_path`
is loaded from the file; otherwise resolution fails with a configuration
error naming the backend. -/
theorem claim_C6_resolve_precedence (c : ProviderConfig) :
    (∀ (env : Env) (k : String), c.api_key = some k → strIsEmpty (rustTrim k) = false →
      resolve_api_key env c = Except.ok k) ∧
    (∀ (env : Env) (p : String), inlineKeyOk c = none → c.api_key_path = some p →
      resolve_api_key env c =
        (match load_api_key_from_file env p with
         | .ok s => Except.ok s
         | .error e => Except.error (ProviderError.ConfigError
             ("Failed to read api_key from " ++ p ++ ": " ++ providerErrorText e)))) ∧
    (∀ env : Env, inlineKeyOk c = none → c.api_key_path = none →
      resolve_api_key env c = Except.error (ProviderError.ConfigError
        ("Provider \x27" ++ c.name ++ "\x27 requires api_key or api_key_path for ApiKey auth"))) := by
  refine ⟨fun env k h1 h2 => ?_, fun env p h1 h2 => ?_, fun env h1 h2 => ?_⟩
  · simp [resolve_api_key, inlineKeyOk, h1, h2]
  · simp [resolve_api_key, h1, h2]
  · simp [resolve_api_key, h1, h2]

/-- Config with both an inline key and a file path. -/
def cfgBoth : ProviderConfig :=
  { name := "withboth", provider_type := "openai", auth_type := .ApiKey,
    api_key := some "sk-inline", api_key_path := some "~/creds/a.txt", base_url := none,
    models := [], oauth_provider := none, enabled := some true }

/-- Config with a file path only. -/
def cfgPathOnly : ProviderConfig :=
  { name := "withpath", provider_type := "openai", auth_type := .ApiKey,
    api_key := none, api_key_path := some "~/creds/a.txt", base_url := none,
    models := [], oauth_provider := none, enabled := some true }

/-- Config with neither inline key nor file path. -/
def cfgNeither : ProviderConfig :=
  { name := "neither", provider_type := "openai", auth_type := .ApiKey,
    api_key := none, api_key_path := none, base_url := none,
    models := [], oauth_provider := none, enabled := some true }

/-- Witness for C6: inline beats the (existing, readable) file; the file
is used when the inline key is absent; neither fails naming the
backend. -/
theorem claim_C6_resolve_precedence_witness :
    resolve_api_key envW cfgBoth = Except.ok "sk-inline" ∧
    resolve_api_key envW cfgPathOnly = Except.ok "sk-filekey" ∧
    resolve_api_key envW cfgNeither = Except.error (ProviderError.ConfigError
      ("Provider \x27neither\x27 requires api_key or api_key_path for ApiKey auth")) := by
  refine ⟨(claim_C6_resolve_precedence cfgBoth).1 envW "sk-inline" rfl (by decide), ?_,
    (claim_C6_resolve_precedence cfgNeither).2.2 envW rfl rfl⟩
  have h := (claim_C6_resolve_precedence cfgPathOnly).2.1 envW "~/creds/a.txt" rfl rfl
  have hl : load_api_key_from_file envW "~/creds/a.txt" = Except.ok "sk-filekey" := rfl
  rw [h, hl]

/-! ### C9 -/

/-- C9: whenever `from_configs` succeeds, the explicit model-mapping index
of the resulting registry is empty and `list_models` returns the empty
list; an empty configuration list additionally yields empty
`list_providers`. -/
theorem claim_C9_no_model_mappings (mk : ProviderConfig → String → Adapter) (env : Env)
    (configs : List ProviderConfig) (r : ProviderRegistry)
    (h : from_configs mk env configs = Except.ok r) :
    r.model_to_provider = [] ∧ list_models r = [] ∧
    (configs = [] → list_providers r = []) := by
  unfold from_configs at h
  have hm : r.model_to_provider = ProviderRegistry.new.model_to_provider :=
    buildLoop_model_map h
  refine ⟨hm, by simp [list_models, hm, ProviderRegistry.new], fun hc => ?_⟩
  subst hc
  simp only [buildLoop, Except.ok.injEq] at h
  simp [← h, list_providers, ProviderRegistry.new]

/-- Witness for C9: the empty configuration list. -/
theorem claim_C9_no_model_mappings_witness :
    from_configs mkW envW [] = Except.ok ProviderRegistry.new ∧
    list_models ProviderRegistry.new = [] ∧ list_providers ProviderRegistry.new = [] :=
  ⟨rfl, (claim_C9_no_model_mappings mkW envW [] ProviderRegistry.new rfl).2.1,
   (claim_C9_no_model_mappings mkW envW [] ProviderRegistry.new rfl).2.2 rfl⟩

/-! ### C5 -/

/-- C5: disabled entries are skipped before credential resolution:
removing them from the list does not change the result of `from_configs`
at all (so arbitrarily malformed credentials on a disabled entry cannot
fail the build), and a name all of whose entries are disabled never
appears in `list_providers` of a successfully built registry. -/
theorem claim_C5_disabled_skipped (mk : ProviderConfig → String → Adapter) (env : Env)
    (configs : List ProviderConfig) :
    from_configs mk env configs =
      from_configs mk env (configs.filter (fun c => c.is_enabled)) ∧
    (∀ (n : String) (r : ProviderRegistry),
      (∀ c ∈ configs, c.name = n → c.is_enabled = false) →
      from_configs mk env configs = Except.ok r → ¬ n ∈ list_providers r) := by
  constructor
  · unfold from_configs
    exact (buildLoop_filter mk env configs ProviderRegistry.new).symm
  · intro n r hall h hn
    unfold from_configs at h
    unfold list_providers at hn
    rcases buildLoop_keys h n hn with h₁ | ⟨c, hc, hck, hce⟩
    · simp [ProviderRegistry.new] at h₁
    · have h2 := hall c hc hck
      rw [h2] at hce
      exact absurd hce (by decide)

/-- A disabled entry with malformed credentials and an unknown tag. -/
def cfgDisabledBad : ProviderConfig :=
  { name := "broken", provider_type := "mystery", auth_type := .ApiKey,
    api_key := none, api_key_path := none, base_url := none,
    models := [], oauth_provider := none, enabled := some false }

/-- Witness for C5: the malformed disabled entry neither fails the build
nor registers its name. -/
theorem claim_C5_disabled_skipped_witness :
    from_configs mkW envW [cfgDisabledBad] = Except.ok ProviderRegistry.new ∧
    ∀ r, from_configs mkW envW [cfgDisabledBad] = Except.ok r →
      ¬ "broken" ∈ list_providers r := by
  constructor
  · have h := (claim_C5_disabled_skipped mkW envW [cfgDisabledBad]).1
    rw [h]
    rfl
  · intro r hr
    exact (claim_C5_disabled_skipped mkW envW [cfgDisabledBad]).2 "broken" r
      (fun c hc _ => by rcases List.mem_singleton.mp hc with rfl; rfl) hr

/-! ### C4 -/

/-- The JSON branch of `load_api_key_from_file`, spelled out: when the
trimmed content starts with a left brace and parses, the result is the
token search over the parsed document, with the no-token error naming the
(expanded) source path. -/
theorem load_json_branch (env : Env) (p q content : String) (v : Json)
    (h1 : expand_home env.home p = some q) (h2 : env.fs q = Except.ok content)
    (h3 : strStartsWith (rustTrim content) "\x7b" = true)
    (h4 : env.parse (rustTrim content) = Except.ok v) :
    load_api_key_from_file env p =
      (match extract_api_key_from_json v with
       | some s => Except.ok s
       | none => Except.error (ProviderError.ConfigError
           ("No api_key/access_token/token field found in " ++ q))) := by
  unfold load_api_key_from_file
  rw [h1]
  dsimp only
  rw [h2]
  dsimp only
  rw [if_pos h3, h4]

/-- The bare-text branch of `load_api_key_from_file`: when the trimmed
content does not start with a left brace, the trimmed content itself is
the secret. -/
theorem load_text_branch (env : Env) (p q content : String)
    (h1 : expand_home env.home p = some q) (h2 : env.fs q = Except.ok content)
    (h3 : strStartsWith (rustTrim content) "\x7b" = false) :
    load_api_key_from_file env p = Except.ok (rustTrim content) := by
  unfold load_api_key_from_file
  rw [h1]
  dsimp only
  rw [h2]
  dsimp only
  rw [if_neg (by rw [h3]; decide)]

/-- Environment for the no-token-found examples: an empty JSON object file
and an all-blank-fields JSON object file. -/
def envC4 : Env :=
  { home := none,
    fs := fun p =>
      if p = "/creds/empty.json" then .ok "\x7b\x7d"
      else if p = "/creds/blank.json" then .ok "\x7b\"api_key\": \"  \"\x7d"
      else .error "no such file",
    parse := fun s =>
      if s = "\x7b\x7d" then .ok (Json.obj [])
      else if s = "\x7b\"api_key\": \"  \"\x7d" then
        .ok (Json.obj [("api_key", Json.str "  ")])
      else .error "bad json" }

/-- C4: the JSON credential search checks the six token keys in priority
order at each object, a non-blank string winning and stopping the search;
it recurses into nested objects (the outer/inner example yields `abc`), a
blank `api_key` is skipped in favour of `token` (yielding `xyz`), an empty
or all-blank document fails with the no-token-found error naming the
source path, and (generally) no blank value is ever returned. -/
theorem claim_C4_json_search :
    extract_api_key_from_json
      (Json.obj [("outer", Json.obj [("inner", Json.obj [("access_token", Json.str "abc")])])])
      = some "abc" ∧
    extract_api_key_from_json
      (Json.obj [("api_key", Json.str ""), ("token", Json.str "xyz")]) = some "xyz" ∧
    load_api_key_from_file envC4 "/creds/empty.json" =
      Except.error (ProviderError.ConfigError
        "No api_key/access_token/token field found in /creds/empty.json") ∧
    load_api_key_from_file envC4 "/creds/blank.json" =
      Except.error (ProviderError.ConfigError
        "No api_key/access_token/token field found in /creds/blank.json") ∧
    (∀ (j : Json) (s : String), extract_api_key_from_json j = some s → s ≠ "") := by
  have hempty : extract_api_key_from_json (Json.obj []) = none := by
    simp only [extract_api_key_from_json, searchJson, searchVals, firstTokenKey, jsonGet,
      TOKEN_KEYS]
    decide
  have hblank : extract_api_key_from_json (Json.obj [("api_key", Json.str "  ")]) = none := by
    simp only [extract_api_key_from_json, searchJson, searchVals, searchArr, firstTokenKey,
      jsonGet, TOKEN_KEYS, Json.asStr]
    decide
  refine ⟨?_, ?_, ?_, ?_, fun j s h => searchJson_ne TOKEN_KEYS j s h⟩
  · simp only [extract_api_key_from_json, searchJson, searchVals, searchArr, firstTokenKey,
      jsonGet, TOKEN_KEYS, Json.asStr]
    decide
  · simp only [extract_api_key_from_json, searchJson, searchVals, searchArr, firstTokenKey,
      jsonGet, TOKEN_KEYS, Json.asStr]
    decide
  · rw [load_json_branch envC4 "/creds/empty.json" "/creds/empty.json" "\x7b\x7d"
      (Json.obj []) rfl rfl (by decide) rfl, hempty]
    rfl
  · rw [load_json_branch envC4 "/creds/blank.json" "/creds/blank.json"
      "\x7b\"api_key\": \"  \"\x7d" (Json.obj [("api_key", Json.str "  ")])
      rfl rfl (by decide) rfl, hblank]
    rfl

/-- Witness for C4's general no-blank-result conjunct at a concrete
document. -/
theorem claim_C4_json_search_witness :
    extract_api_key_from_json (Json.obj [("token", Json.str "xyz")]) = some "xyz" ∧
    ("xyz" : String) ≠ "" := by
  have h : extract_api_key_from_json (Json.obj [("token", Json.str "xyz")]) = some "xyz" := by
    simp only [extract_api_key_from_json, searchJson, searchVals, searchArr, firstTokenKey,
      jsonGet, TOKEN_KEYS, Json.asStr]
    decide
  exact ⟨h, claim_C4_json_search.2.2.2.2 (Json.obj [("token", Json.str "xyz")]) "xyz" h⟩

/-! ### C7 -/

/-- Environment for the top-level-array credential file: the parser does
recognise the array document, so a search (had one happened) would have
found `abc`; a second file holds plain text. -/
def envC7 : Env :=
  { home := some "/home/user",
    fs := fun p =>
      if p = "/creds/arr.json" then .ok "[\x7b\"access_token\": \"abc\"\x7d]"
      else if p = "/creds/plain.txt" then .ok " plaintext-key "
      else .error "no such file",
    parse := fun s =>
      if s = "[\x7b\"access_token\": \"abc\"\x7d]" then
        .ok (Json.arr [Json.obj [("access_token", Json.str "abc")]])
      else .error "bad json" }

/-- Counterexample to C7 as stated: a credential file whose trimmed
content is a JSON document with a top-level array is NOT parsed and
searched — `load_api_key_from_file` returns the raw trimmed text
verbatim, even though the parser recognises the document and the token
search over it would yield `abc`. -/
theorem claim_C7_cex :
    load_api_key_from_file envC7 "/creds/arr.json" =
      Except.ok "[\x7b\"access_token\": \"abc\"\x7d]" ∧
    envC7.parse "[\x7b\"access_token\": \"abc\"\x7d]" =
      Except.ok (Json.arr [Json.obj [("access_token", Json.str "abc")]]) ∧
    extract_api_key_from_json (Json.arr [Json.obj [("access_token", Json.str "abc")]])
      = some "abc" ∧
    ("[\x7b\"access_token\": \"abc\"\x7d]" : String) ≠ "abc" := by
  refine ⟨?_, rfl, ?_, by decide⟩
  · have h := load_text_branch envC7 "/creds/arr.json" "/creds/arr.json"
      "[\x7b\"access_token\": \"abc\"\x7d]" rfl rfl (by decide)
    rw [h]
    rfl
  · simp only [extract_api_key_from_json, searchJson, searchVals, searchArr, firstTokenKey,
      jsonGet, TOKEN_KEYS, Json.asStr]
    decide

/-- C7 (amended): only a credential file whose trimmed content starts with
a left brace is parsed as JSON and searched; any other content — a
top-level JSON array included — is treated as a bare text file whose
trimmed content is the secret verbatim. -/
theorem claim_C7_array_is_bare_text (env : Env) (p q content : String)
    (h1 : expand_home env.home p = some q)
    (h2 : env.fs q = Except.ok content)
    (h3 : strStartsWith (rustTrim content) "\x7b" = false) :
    load_api_key_from_file env p = Except.ok (rustTrim content) :=
  load_text_branch env p q content h1 h2 h3

/-- Witness for the amended C7 at the plain-text file. -/
theorem claim_C7_array_is_bare_text_witness :
    load_api_key_from_file envC7 "/creds/plain.txt" = Except.ok "plaintext-key" := by
  have h := claim_C7_array_is_bare_text envC7 "/creds/plain.txt" "/creds/plain.txt"
    " plaintext-key " rfl rfl (by decide)
  rw [h]
  rfl

/-! ### C1 -/

/-- C1: registry construction is all-or-nothing.  If any enabled entry
fails (its credential resolution errors, or its `provider_type` is
unknown), `from_configs` returns a `ConfigError` — so no registry value is
produced at all and entries earlier in the list are not registered
anywhere; when the first failing enabled entry is an unknown-family one,
the error names the unrecognized tag. -/
theorem claim_C1_all_or_nothing (mk : ProviderConfig → String → Adapter) (env : Env)
    (configs : List ProviderConfig) :
    ((∃ c ∈ configs, entryFails env c = true) →
      ∃ m, from_configs mk env configs = Except.error (ProviderError.ConfigError m)) ∧
    (∀ pre c post, configs = pre ++ c :: post →
      (∀ d ∈ pre, entryFails env d = false) →
      c.is_enabled = true →
      (∃ k, entryKey env c = Except.ok k) →
      knownProviderTypes.contains c.provider_type = false →
      from_configs mk env configs =
        Except.error (ProviderError.ConfigError
          ("Unknown provider type: " ++ c.provider_type))) := by
  constructor
  · rintro ⟨c, hc, hf⟩
    unfold from_configs
    exact buildLoop_error_of_mem hc hf ProviderRegistry.new
  · rintro pre c post rfl hpre hen ⟨k, hek⟩ hkn
    unfold from_configs
    obtain ⟨reg', h'⟩ := buildLoop_append_ok hpre ProviderRegistry.new (c :: post)
    rw [h']
    have hbs : buildStep mk env reg' c =
        Except.error (ProviderError.ConfigError
          ("Unknown provider type: " ++ c.provider_type)) := by
      unfold buildStep
      rw [hen]
      simp only [Bool.true_eq_false, if_false]
      rw [hek]
      dsimp only
      rw [if_neg (by rw [hkn]; decide)]
    simp [buildLoop, hbs]

/-- A well-formed enabled entry. -/
def cfgGood : ProviderConfig :=
  { name := "good", provider_type := "openai", auth_type := .ApiKey,
    api_key := some "sk-1", api_key_path := none, base_url := none,
    models := ["gpt-4"], oauth_provider := none, enabled := none }

/-- An enabled entry with an unknown provider type. -/
def cfgBadTag : ProviderConfig :=
  { name := "bad", provider_type := "mystery", auth_type := .OAuth,
    api_key := none, api_key_path := none, base_url := none,
    models := [], oauth_provider := none, enabled := some true }

/-- Witness for C1: a good entry followed by an unknown-tag entry aborts
the whole build, naming the tag; the good entry is not registered. -/
theorem claim_C1_all_or_nothing_witness :
    (∃ m, from_configs mkW envW [cfgGood, cfgBadTag] =
      Except.error (ProviderError.ConfigError m)) ∧
    from_configs mkW envW [cfgGood, cfgBadTag] =
      Except.error (ProviderError.ConfigError "Unknown provider type: mystery") := by
  constructor
  · exact (claim_C1_all_or_nothing mkW envW [cfgGood, cfgBadTag]).1
      ⟨cfgBadTag, List.mem_cons_of_mem _ (List.mem_cons_self _ _), by decide⟩
  · have h := (claim_C1_all_or_nothing mkW envW [cfgGood, cfgBadTag]).2
      [cfgGood] cfgBadTag [] rfl
      (fun d hd => by rcases List.mem_singleton.mp hd with rfl; decide)
      rfl ⟨"bad", rfl⟩ (by decide)
    exact h

/-! ### C10 -/

/-- C10 (implicit behaviour): when every entry of the list constructs
successfully, `from_configs` succeeds even in the presence of duplicate
names; the registry maps each name to the adapter built from the last
enabled entry carrying it (later inserts silently replace earlier ones),
and `list_providers` contains that name exactly once. -/
theorem claim_C10_duplicate_names (mk : ProviderConfig → String → Adapter) (env : Env)
    (configs : List ProviderConfig)
    (h : ∀ c ∈ configs, entryFails env c = false) :
    ∃ r, from_configs mk env configs = Except.ok r ∧
      ∀ n c, lastEnabledNamed configs n = some c →
        ∃ k, entryKey env c = Except.ok k ∧
          lookupAssoc r.providers n = some (mk c k) ∧
          (list_providers r).count n = 1 := by
  refine ⟨configs.foldl (buildPure mk env) ProviderRegistry.new, ?_, ?_⟩
  · unfold from_configs
    exact buildLoop_ok_of_all h ProviderRegistry.new
  · intro n c hc
    obtain ⟨k, hk, hl⟩ := (foldPure_lookup configs h ProviderRegistry.new n).2 c hc
    refine ⟨k, hk, hl, ?_⟩
    have hnodup := foldPure_keys_nodup mk env configs ProviderRegistry.new
      (by simp [ProviderRegistry.new])
    have hmem : n ∈ (configs.foldl (buildPure mk env) ProviderRegistry.new).providers.map
        Prod.fst := (mem_keys_iff_lookupAssoc _ n).mpr ⟨_, hl⟩
    unfold list_providers
    exact List.count_eq_one_of_mem hnodup hmem

/-- First entry named `dup`. -/
def cfgDup1 : ProviderConfig :=
  { name := "dup", provider_type := "openai", auth_type := .ApiKey,
    api_key := some "sk-first", api_key_path := none, base_url := none,
    models := [], oauth_provider := none, enabled := some true }

/-- Second entry named `dup`, of a different family. -/
def cfgDup2 : ProviderConfig :=
  { name := "dup", provider_type := "groq", auth_type := .ApiKey,
    api_key := some "sk-second", api_key_path := none, base_url := none,
    models := [], oauth_provider := none, enabled := some true }

/-- Witness for C10: two enabled entries named `dup`; the build succeeds,
the surviving adapter is the one built from the second entry, and the name
is listed once. -/
theorem claim_C10_duplicate_names_witness :
    ∃ r, from_configs mkW envW [cfgDup1, cfgDup2] = Except.ok r ∧
      lookupAssoc r.providers "dup" = some (mkW cfgDup2 "sk-second") ∧
      (list_providers r).count "dup" = 1 := by
  obtain ⟨r, hr, hprop⟩ := claim_C10_duplicate_names mkW envW [cfgDup1, cfgDup2]
    (by
      intro c hc
      rcases List.mem_cons.mp hc with rfl | hc
      · decide
      · rcases List.mem_singleton.mp hc with rfl
        decide)
  obtain ⟨k, hk, hl, hcount⟩ := hprop "dup" cfgDup2 rfl
  have hk2 : entryKey envW cfgDup2 = Except.ok "sk-second" := rfl
  rw [hk2] at hk
  injection hk with hk
  subst hk
  exact ⟨r, hr, hl, hcount⟩
